import Mathlib

/-!
Verification development for the authentication/session derivation layer of
the agentic-app-platform repository.

The embedded code (in dependency order):
- `src/lib/jwt-decode.ts` : `decodeJWT`, `extractUserFromJWT`
- `src/lib/server-auth.ts` : `isMockAuthEnabled`, `MOCK_USER`, `getUserFromHeaders`
- the session API route (`GET`)
- `useAuth` (compatibility adapter)

JavaScript runtime behaviour that the TypeScript source relies on is modelled
explicitly: `JSON.parse` produces a dynamic JSON value, truthiness treats
null, false, zero and the empty string as false, and
`Buffer.from(s, 'base64url')` / `toString('utf-8')` are lenient total
decoders. The cast `JSON.parse(...) as JWTPayload` in the source is
compile-time only, so claim values of any JSON type flow unchecked into the
string-typed User fields; the model keeps those fields dynamic (JSON
values) to represent that.
-/

namespace AppPlatform

/-- A parsed JSON value, the result type of a successful `JSON.parse`.
Object fields keep their textual order; duplicate keys are resolved at
lookup time (last occurrence wins, as `JSON.parse` does). JSON numbers are
kept as their validated source literal: no claim depends on their numeric
value beyond zero-ness, which is decidable from the literal. -/
inductive JVal where
  | jnull : JVal
  | jbool (b : Bool) : JVal
  | jnum (lit : String) : JVal
  | jstr (s : String) : JVal
  | jarr (elems : List JVal) : JVal
  | jobj (fields : List (String × JVal)) : JVal
deriving Repr

/-! ## Base64url decoding, modelling Node `Buffer.from(s, 'base64url')`

Node's base64 family of decoders is lenient and total: characters outside
the alphabet (including padding) are skipped, and leftover bits that do not
fill a byte are dropped. Both the url-safe and the standard alphabet are
accepted. -/

/-- Six-bit value of a base64/base64url alphabet character, none for
characters the decoder skips. -/
def b64Val (c : Char) : Option Nat :=
  if 'A' ≤ c ∧ c ≤ 'Z' then some (c.toNat - 65)
  else if 'a' ≤ c ∧ c ≤ 'z' then some (c.toNat - 97 + 26)
  else if '0' ≤ c ∧ c ≤ '9' then some (c.toNat - 48 + 52)
  else if c = '-' ∨ c = '+' then some 62
  else if c = '_' ∨ c = '/' then some 63
  else none

/-- Regroup a stream of 6-bit values into 8-bit bytes; a trailing group of
fewer than four sextets yields the bytes it fully determines. -/
def sextetsToBytes : List Nat → List Nat
  | a :: b :: c :: d :: rest =>
      (a * 4 + b / 16) :: ((b % 16) * 16 + c / 4) :: ((c % 4) * 64 + d) :: sextetsToBytes rest
  | [a, b] => [a * 4 + b / 16]
  | [a, b, c] => [a * 4 + b / 16, (b % 16) * 16 + c / 4]
  | _ => []

/-- Decode a base64url string to a byte list, leniently and totally as Node
does. -/
def base64urlDecode (s : String) : List Nat :=
  sextetsToBytes (s.toList.filterMap b64Val)

/-! ## UTF-8 decoding, modelling `Buffer.toString('utf-8')`

Total and lossy: an invalid or truncated sequence, an overlong encoding, a
surrogate code point or an out-of-range code point produces U+FFFD and
decoding continues. -/

/-- The replacement character U+FFFD. -/
def replChar : Char := Char.ofNat 0xFFFD

/-- True when `b` is a UTF-8 continuation byte. -/
def isCont (b : Nat) : Bool := 0x80 ≤ b ∧ b < 0xC0

/-- Decode UTF-8 bytes to characters, fuel-indexed (fuel at least the byte
count suffices); invalid input yields U+FFFD, never a failure. -/
def utf8Chars : Nat → List Nat → List Char
  | 0, _ => []
  | _, [] => []
  | fuel + 1, b :: rest =>
    if b < 0x80 then Char.ofNat b :: utf8Chars fuel rest
    else if 0xC2 ≤ b ∧ b < 0xE0 then
      match rest with
      | b2 :: rest2 =>
        if isCont b2 then
          Char.ofNat ((b - 0xC0) * 64 + (b2 - 0x80)) :: utf8Chars fuel rest2
        else replChar :: utf8Chars fuel rest
      | [] => [replChar]
    else if 0xE0 ≤ b ∧ b < 0xF0 then
      match rest with
      | b2 :: b3 :: rest3 =>
        if isCont b2 ∧ isCont b3 then
          let cp := (b - 0xE0) * 4096 + (b2 - 0x80) * 64 + (b3 - 0x80)
          if cp < 0x800 ∨ (0xD800 ≤ cp ∧ cp ≤ 0xDFFF) then replChar :: utf8Chars fuel rest3
          else Char.ofNat cp :: utf8Chars fuel rest3
        else replChar :: utf8Chars fuel rest
      | _ => [replChar]
    else if 0xF0 ≤ b ∧ b < 0xF5 then
      match rest with
      | b2 :: b3 :: b4 :: rest4 =>
        if isCont b2 ∧ isCont b3 ∧ isCont b4 then
          let cp := (b - 0xF0) * 262144 + (b2 - 0x80) * 4096 + (b3 - 0x80) * 64 + (b4 - 0x80)
          if cp < 0x10000 ∨ 0x10FFFF < cp then replChar :: utf8Chars fuel rest4
          else Char.ofNat cp :: utf8Chars fuel rest4
        else replChar :: utf8Chars fuel rest
      | _ => [replChar]
    else replChar :: utf8Chars fuel rest

/-- Decode a byte list as UTF-8 text, totally. -/
def utf8Decode (bytes : List Nat) : String :=
  String.mk (utf8Chars bytes.length bytes)

/-! ## JSON parsing, modelling `JSON.parse`

A recursive-descent parser for ECMA-404 JSON. Failure is an `Option.none`
result, standing for the exception `JSON.parse` throws (which the source
catches). -/

/-- Skip JSON insignificant whitespace. -/
def skipWs : List Char → List Char
  | c :: cs => if c = ' ' ∨ c = '\t' ∨ c = '\n' ∨ c = '\r' then skipWs cs else c :: cs
  | [] => []

/-- Value of a hexadecimal digit. -/
def hexVal (c : Char) : Option Nat :=
  if '0' ≤ c ∧ c ≤ '9' then some (c.toNat - 48)
  else if 'a' ≤ c ∧ c ≤ 'f' then some (c.toNat - 87)
  else if 'A' ≤ c ∧ c ≤ 'F' then some (c.toNat - 55)
  else none

/-- Read four hexadecimal digits. -/
def hex4 : List Char → Option (Nat × List Char)
  | a :: b :: c :: d :: rest =>
    match hexVal a, hexVal b, hexVal c, hexVal d with
    | some x, some y, some z, some w => some (((x * 16 + y) * 16 + z) * 16 + w, rest)
    | _, _, _, _ => none
  | _ => none

/-- Translation of a single-character JSON escape. -/
def escChar (c : Char) : Option Char :=
  if c = '"' then some '"'
  else if c = '\\' then some '\\'
  else if c = '/' then some '/'
  else if c = 'b' then some (Char.ofNat 8)
  else if c = 'f' then some (Char.ofNat 12)
  else if c = 'n' then some '\n'
  else if c = 'r' then some '\r'
  else if c = 't' then some '\t'
  else none

/-- Parse the body of a JSON string after its opening quote. Surrogate
escape pairs combine to the encoded code point; a lone surrogate escape is
modelled as U+FFFD (JavaScript strings can hold lone surrogates, Lean
characters cannot; such a string becomes U+FFFD at any later encoding
boundary). -/
def parseStrBody : Nat → List Char → List Char → Option (String × List Char)
  | 0, _, _ => none
  | fuel + 1, cs, acc =>
    match cs with
    | [] => none
    | c :: rest =>
      if c = '"' then some (String.mk acc.reverse, rest)
      else if c = '\\' then
        match rest with
        | [] => none
        | e :: rest2 =>
          if e = 'u' then
            match hex4 rest2 with
            | some (cp, rest3) =>
              if 0xD800 ≤ cp ∧ cp ≤ 0xDBFF then
                match rest3 with
                | '\\' :: 'u' :: rest4 =>
                  match hex4 rest4 with
                  | some (cp2, rest5) =>
                    if 0xDC00 ≤ cp2 ∧ cp2 ≤ 0xDFFF then
                      parseStrBody fuel rest5
                        (Char.ofNat (0x10000 + (cp - 0xD800) * 1024 + (cp2 - 0xDC00)) :: acc)
                    else parseStrBody fuel ('\\' :: 'u' :: rest4) (replChar :: acc)
                  | none => parseStrBody fuel ('\\' :: 'u' :: rest4) (replChar :: acc)
                | _ => parseStrBody fuel rest3 (replChar :: acc)
              else if 0xDC00 ≤ cp ∧ cp ≤ 0xDFFF then
                parseStrBody fuel rest3 (replChar :: acc)
              else parseStrBody fuel rest3 (Char.ofNat cp :: acc)
            | none => none
          else
            match escChar e with
            | some ec => parseStrBody fuel rest2 (ec :: acc)
            | none => none
      else if c.toNat < 0x20 then none
      else parseStrBody fuel rest (c :: acc)

/-- Characters that can occur in a JSON number literal. -/
def numLitChar (c : Char) : Bool :=
  c.isDigit || c = '-' || c = '+' || c = '.' || c = 'e' || c = 'E'

/-- Consume leading decimal digits, returning how many were consumed. -/
def chompDigits : List Char → Nat × List Char
  | c :: cs =>
    if c.isDigit then
      let r := chompDigits cs
      (r.1 + 1, r.2)
    else (0, c :: cs)
  | [] => (0, [])

/-- Integer part of a JSON number: a single zero, or a nonzero digit with
digits after it. -/
def numIntPart : List Char → Option (List Char)
  | '0' :: rest => some rest
  | c :: rest => if c.isDigit then some (chompDigits rest).2 else none
  | [] => none

/-- Optional fraction part of a JSON number. -/
def numFracPart : List Char → Option (List Char)
  | '.' :: rest =>
    match chompDigits rest with
    | (0, _) => none
    | (_, r) => some r
  | cs => some cs

/-- Optional exponent part of a JSON number. -/
def numExpPart : List Char → Option (List Char)
  | e :: rest =>
    if e = 'e' ∨ e = 'E' then
      let rest2 := match rest with
        | s :: r => if s = '+' ∨ s = '-' then r else s :: r
        | [] => []
      match chompDigits rest2 with
      | (0, _) => none
      | (_, r) => some r
    else some (e :: rest)
  | [] => some []

/-- Whether a character list is exactly one well-formed JSON number literal. -/
def validNumLit (cs : List Char) : Bool :=
  let cs1 := match cs with
    | '-' :: r => r
    | r => r
  match numIntPart cs1 with
  | some r1 =>
    match numFracPart r1 with
    | some r2 =>
      match numExpPart r2 with
      | some r3 => r3.isEmpty
      | none => false
    | none => false
  | none => false

/-- Parse a JSON number at the head of the input: the maximal run of
number-literal characters must form a valid literal. -/
def parseNum (cs : List Char) : Option (JVal × List Char) :=
  let lit := cs.takeWhile numLitChar
  if validNumLit lit then some (JVal.jnum (String.mk lit), cs.dropWhile numLitChar)
  else none

mutual

/-- Parse one JSON value (leading whitespace allowed), fuel-indexed. -/
def parseVal : Nat → List Char → Option (JVal × List Char)
  | 0, _ => none
  | fuel + 1, cs =>
    match skipWs cs with
    | [] => none
    | '{' :: rest =>
      (match skipWs rest with
       | '}' :: rest2 => some (JVal.jobj [], rest2)
       | rest2 => parseMembers fuel rest2 [])
    | '[' :: rest =>
      (match skipWs rest with
       | ']' :: rest2 => some (JVal.jarr [], rest2)
       | rest2 => parseElems fuel rest2 [])
    | '"' :: rest =>
      (match parseStrBody (rest.length + 1) rest [] with
       | some (s, rest2) => some (JVal.jstr s, rest2)
       | none => none)
    | 't' :: 'r' :: 'u' :: 'e' :: rest => some (JVal.jbool true, rest)
    | 'f' :: 'a' :: 'l' :: 's' :: 'e' :: rest => some (JVal.jbool false, rest)
    | 'n' :: 'u' :: 'l' :: 'l' :: rest => some (JVal.jnull, rest)
    | c :: rest => if c = '-' ∨ c.isDigit then parseNum (c :: rest) else none

/-- Parse the remaining members of a JSON object (after the opening brace,
when the object is not empty). -/
def parseMembers : Nat → List Char → List (String × JVal) → Option (JVal × List Char)
  | 0, _, _ => none
  | fuel + 1, cs, acc =>
    match skipWs cs with
    | '"' :: rest =>
      (match parseStrBody (rest.length + 1) rest [] with
       | some (k, rest2) =>
         (match skipWs rest2 with
          | ':' :: rest3 =>
            (match parseVal fuel rest3 with
             | some (v, rest4) =>
               (match skipWs rest4 with
                | ',' :: rest5 => parseMembers fuel rest5 (acc ++ [(k, v)])
                | '}' :: rest5 => some (JVal.jobj (acc ++ [(k, v)]), rest5)
                | _ => none)
             | none => none)
          | _ => none)
       | none => none)
    | _ => none

/-- Parse the remaining elements of a JSON array (after the opening bracket,
when the array is not empty). -/
def parseElems : Nat → List Char → List JVal → Option (JVal × List Char)
  | 0, _, _ => none
  | fuel + 1, cs, acc =>
    match parseVal fuel cs with
    | some (v, rest) =>
      (match skipWs rest with
       | ',' :: rest2 => parseElems fuel rest2 (acc ++ [v])
       | ']' :: rest2 => some (JVal.jarr (acc ++ [v]), rest2)
       | _ => none)
    | none => none

end

/-- `JSON.parse`: one JSON value spanning the whole input, or failure. -/
def jsonParse (s : String) : Option JVal :=
  let cs := s.toList
  match parseVal (cs.length + 1) cs with
  | some (v, rest) => if (skipWs rest).isEmpty then some v else none
  | none => none

/-! ## JavaScript value helpers -/

/-- Last binding of a key in an object's field list, as `JSON.parse` keeps
the last occurrence of a duplicated key. -/
def lookupLast : List (String × JVal) → String → Option JVal
  | [], _ => none
  | (k1, v) :: rest, k =>
    match lookupLast rest k with
    | some r => some r
    | none => if k1 = k then some v else none

/-- JavaScript property read `v[k]` on a parsed JSON value: a field of an
object, `undefined` (none) otherwise. -/
def jget (v : JVal) (k : String) : Option JVal :=
  match v with
  | JVal.jobj fs => lookupLast fs k
  | _ => none

/-- Whether a validated JSON number literal denotes zero: every mantissa
digit is 0 (the exponent cannot make a nonzero mantissa zero). -/
def numIsZero (lit : String) : Bool :=
  (lit.toList.takeWhile (fun c => c ≠ 'e' ∧ c ≠ 'E')).all fun c => !c.isDigit || c = '0'

/-- JavaScript falsiness of a parsed JSON value (`null`, `false`, `0`, and
the empty string are falsy; objects and arrays are always truthy). -/
def jsFalsy : JVal → Bool
  | JVal.jnull => true
  | JVal.jbool b => !b
  | JVal.jnum lit => numIsZero lit
  | JVal.jstr s => s = ""
  | JVal.jarr _ => false
  | JVal.jobj _ => false

/-- JavaScript `a || b` where each side is a possibly-undefined property
read: `a` unless it is undefined or falsy, in which case `b`. -/
def jsOrVal (a b : Option JVal) : Option JVal :=
  match a with
  | some v => if jsFalsy v then b else some v
  | none => b

/-- Split a character list on a separator character, JavaScript
`String.prototype.split` style: the empty input gives one empty segment,
and every separator occurrence starts a new segment. -/
def splitOnChar (sep : Char) : List Char → List (List Char)
  | [] => [[]]
  | c :: rest =>
    if c = sep then [] :: splitOnChar sep rest
    else
      match splitOnChar sep rest with
      | g :: gs => (c :: g) :: gs
      | [] => [[c]]

/-- JavaScript `s.split('.')`. -/
def splitDots (s : String) : List String :=
  (splitOnChar '.' s.toList).map String.mk

/-! ## `src/lib/jwt-decode.ts` -/

/-- `decodeJWT`: split the token on the dot; fail unless there are exactly
three segments; base64url-decode the middle segment, read it as UTF-8 and
`JSON.parse` it. The TypeScript function returns null when the segment
count is wrong, when `JSON.parse` throws, and also when `JSON.parse`
succeeds with the value null (that value is returned, and it is null);
all three are `Option.none` here. A non-null parse result is returned
as the payload. -/
def decodeJWT (token : String) : Option JVal :=
  match splitDots token with
  | [_, payload, _] =>
    match jsonParse (utf8Decode (base64urlDecode payload)) with
    | none => none
    | some JVal.jnull => none
    | some v => some v
  | _ => none

/-- `User` from `src/lib/user-types.ts`. The interface declares id and
email as required strings and name and avatar_url as optional strings,
but the cast `JSON.parse(...) as JWTPayload` upstream is unchecked, so at
runtime the fields carry whatever JSON values the claims held; the model
therefore types them as JSON values (a genuine string field holds a
`JVal.jstr`). -/
structure User where
  id : JVal
  email : JVal
  name : Option JVal
  avatar_url : Option JVal
deriving Repr

/-- `extractUserFromJWT`: requires a truthy `email` claim (an absent key
or a falsy value — null, false, zero, empty string — fails); id falls back
from `sub` to `email` by JavaScript `||`, and avatar_url falls back from
`picture` to `avatar_url` likewise; `name` is copied as-is. The claim
values are carried unchanged, whether or not they are strings. -/
def extractUserFromJWT (payload : JVal) : Option User :=
  match jget payload "email" with
  | none => none
  | some e =>
    if jsFalsy e then none
    else some
      { id := match jget payload "sub" with
              | some s => if jsFalsy s then e else s
              | none => e
        email := e
        name := jget payload "name"
        avatar_url := jsOrVal (jget payload "picture") (jget payload "avatar_url") }

/-! ## `src/lib/server-auth.ts` -/

/-- The environment variables the session resolver consults. -/
structure AuthEnv where
  MOCK_AUTH : Option String
  NODE_ENV : Option String
deriving DecidableEq, Repr

/-- `isMockAuthEnabled`: the explicit flag set to the string true, or the
development environment mode. -/
def isMockAuthEnabled (env : AuthEnv) : Bool :=
  if env.MOCK_AUTH = some "true" then true
  else if env.NODE_ENV = some "development" then true
  else false

/-- `MOCK_USER`: the fixed mock user for local and testing environments
(all its populated fields are string values). -/
def MOCK_USER : User :=
  { id := JVal.jstr "dev-user-001"
    email := JVal.jstr "developer@localhost.dev"
    name := some (JVal.jstr "Local Developer")
    avatar_url := none }

/-- `UserSession` from `src/lib/user-types.ts`. -/
structure UserSession where
  user : User
  access_token : Option String
deriving Repr

/-- The code after the header block of `getUserFromHeaders`: return the
mock user when mock auth is enabled, otherwise no user. -/
def mockAuthFallback (env : AuthEnv) : Option UserSession :=
  if isMockAuthEnabled env then some { user := MOCK_USER, access_token := none }
  else none

/-- `getUserFromHeaders`: read the trust header `x-goog-iap-jwt-assertion`
(none models an absent header). A truthy (present, non-empty) header is
decoded; a truthy payload goes to claim extraction; a successful extraction
returns the session with the raw header as access token. Every failure on
that path falls through to the mock-auth fallback. -/
def getUserFromHeaders (env : AuthEnv) (forwardedUser : Option String) : Option UserSession :=
  match forwardedUser with
  | none => mockAuthFallback env
  | some h =>
    if h = "" then mockAuthFallback env
    else
      match decodeJWT h with
      | none => mockAuthFallback env
      | some payload =>
        if jsFalsy payload then mockAuthFallback env
        else
          match extractUserFromJWT payload with
          | some user => some { user := user, access_token := some h }
          | none => mockAuthFallback env

/-! ## The session API route (`GET /api/auth/user`) -/

/-- The JSON body shapes the route produces. -/
inductive ApiBody where
  | noUser : ApiBody
  | withUser (user : User) (access_token : Option String) : ApiBody
deriving Repr

/-- An HTTP response of the route: status code and JSON body. -/
structure ApiResponse where
  status : Nat
  body : ApiBody
deriving Repr

/-- The route handler `GET`: resolve the session; with no session respond
200 with a null user, otherwise respond 200 (the default status) with the
user and access token. -/
def GET (env : AuthEnv) (forwardedUser : Option String) : ApiResponse :=
  match getUserFromHeaders env forwardedUser with
  | none => { status := 200, body := ApiBody.noUser }
  | some session => { status := 200, body := ApiBody.withUser session.user session.access_token }

/-! ## `useAuth` (compatibility adapter) -/

/-- The user_metadata record of the legacy session shape; its field copies
a dynamic user field. -/
structure CompatUserMetadata where
  avatar_url : Option JVal
deriving Repr

/-- The user record of the legacy session shape; id and email copy dynamic
user fields. -/
structure CompatUser where
  id : JVal
  email : JVal
  user_metadata : CompatUserMetadata
deriving Repr

/-- The legacy (Supabase-like) session shape produced by `useAuth`. -/
structure CompatSession where
  user : CompatUser
  access_token : Option String
deriving Repr

/-- `UserTeam` from `src/lib/user-types.ts`: id, email and name copy
dynamic user fields; tier only ever receives the literal string default,
so it stays a string. -/
structure UserTeam where
  id : JVal
  email : JVal
  name : JVal
  tier : String
deriving Repr

/-- `useAuth`: project the session held by the user context into the legacy
session shape and a derived team, passing the loading flag through. The
team name is JavaScript `user.name || user.email`. -/
def useAuth (session : Option UserSession) (isLoading : Bool) :
    Option CompatSession × Option UserTeam × Bool :=
  let compatSession : Option CompatSession :=
    match session with
    | some s => some
        { user :=
            { id := s.user.id
              email := s.user.email
              user_metadata := { avatar_url := s.user.avatar_url } }
          access_token := s.access_token }
    | none => none
  let userTeam : Option UserTeam :=
    match session with
    | some s => some
        { id := s.user.id
          email := s.user.email
          name := match s.user.name with
                  | some n => if jsFalsy n then s.user.email else n
                  | none => s.user.email
          tier := "default" }
    | none => none
  (compatSession, userTeam, isLoading)

/-- A JWT carrying the claims email and sub, used as a concrete request
header below (its middle segment is the base64url encoding of a JSON
object with email a@b.com and sub u1). -/
def iapToken : String :=
  "eyJhbGciOiJub25lIn0.eyJlbWFpbCI6ImFAYi5jb20iLCJzdWIiOiJ1MSJ9.sig"

/-- The payload `iapToken` decodes to. -/
def iapPayload : JVal :=
  JVal.jobj [("email", JVal.jstr "a@b.com"), ("sub", JVal.jstr "u1")]

/-! ## Helper lemmas -/

/-- A payload with any claim at all is a JSON object, hence truthy. -/
theorem jget_some_not_falsy (p : JVal) (k : String) (v : JVal)
    (h : jget p k = some v) : jsFalsy p = false := by
  cases p <;> simp [jget, jsFalsy] at h ⊢

/-- A payload from which a user was extracted is truthy. -/
theorem extract_some_not_falsy (p : JVal) (u : User)
    (h : extractUserFromJWT p = some u) : jsFalsy p = false := by
  unfold extractUserFromJWT at h
  cases hcl : jget p "email" with
  | none => rw [hcl] at h; exact absurd h (by simp)
  | some e => exact jget_some_not_falsy p "email" e hcl

/-- The mock fallback only ever returns the mock session. -/
theorem mockAuthFallback_eq_some (env : AuthEnv) (s : UserSession)
    (h : mockAuthFallback env = some s) :
    s = { user := MOCK_USER, access_token := none } := by
  unfold mockAuthFallback at h
  split at h
  · exact (Option.some.inj h).symm
  · exact absurd h (by simp)

/-! ## Claims -/

/-- Claim C1: if the trust header is present and non-empty, decodes to a
payload, and claim extraction yields a user, the resolver returns the
session with that user and the raw header as access token, for every
environment configuration — the mock-auth fallback is never consulted on
this path. -/
theorem header_identity_wins (env : AuthEnv) (h : String) (p : JVal) (u : User)
    (hne : h ≠ "") (hdec : decodeJWT h = some p)
    (hext : extractUserFromJWT p = some u) :
    getUserFromHeaders env (some h) = some { user := u, access_token := some h } := by
  have hf : jsFalsy p = false := extract_some_not_falsy p u hext
  simp [getUserFromHeaders, hne, hdec, hf, hext]

/-- Claim C1 witness: the concrete token resolves to its header-derived
session even with both mock-auth switches on. -/
theorem header_identity_wins_witness :
    getUserFromHeaders ⟨some "true", some "development"⟩ (some iapToken) =
      some { user := { id := JVal.jstr "u1", email := JVal.jstr "a@b.com",
                       name := none, avatar_url := none },
             access_token := some iapToken } :=
  header_identity_wins ⟨some "true", some "development"⟩ iapToken iapPayload
    { id := JVal.jstr "u1", email := JVal.jstr "a@b.com", name := none, avatar_url := none }
    (by decide) rfl rfl

/-- Claim C2: a present header that fails to decode, or decodes but fails
claim extraction, falls through to the mock-auth fallback: with mock-auth
enabled the resolver returns the mock session rather than none. -/
theorem decode_failure_falls_back_to_mock (env : AuthEnv) (h : String)
    (hne : h ≠ "")
    (hfail : decodeJWT h = none ∨
      ∃ p, decodeJWT h = some p ∧ extractUserFromJWT p = none)
    (hmock : isMockAuthEnabled env = true) :
    getUserFromHeaders env (some h) = some { user := MOCK_USER, access_token := none } := by
  rcases hfail with hd | ⟨p, hd, he⟩
  · simp [getUserFromHeaders, hne, hd, mockAuthFallback, hmock]
  · by_cases hf : jsFalsy p
    · simp [getUserFromHeaders, hne, hd, hf, mockAuthFallback, hmock]
    · simp [getUserFromHeaders, hne, hd, hf, he, mockAuthFallback, hmock]

/-- Claim C2 witness: a malformed header with mock-auth enabled yields the
mock session. -/
theorem decode_failure_falls_back_to_mock_witness :
    getUserFromHeaders ⟨some "true", none⟩ (some "not-a-jwt") =
      some { user := MOCK_USER, access_token := none } :=
  decode_failure_falls_back_to_mock ⟨some "true", none⟩ "not-a-jwt"
    (by decide) (Or.inl rfl) (by decide)

/-- Claim C3: with no (or empty) trust header, when MOCK_AUTH is not the
string true and NODE_ENV is not development the resolver returns none; and
mock-auth is enabled exactly when MOCK_AUTH is true or NODE_ENV is
development. -/
theorem none_when_no_header_and_mock_disabled :
    (∀ (env : AuthEnv) (fw : Option String), (fw = none ∨ fw = some "") →
      env.MOCK_AUTH ≠ some "true" → env.NODE_ENV ≠ some "development" →
      getUserFromHeaders env fw = none) ∧
    (∀ env : AuthEnv, isMockAuthEnabled env = true ↔
      (env.MOCK_AUTH = some "true" ∨ env.NODE_ENV = some "development")) := by
  constructor
  · intro env fw hfw hm hn
    have hdis : isMockAuthEnabled env = false := by simp [isMockAuthEnabled, hm, hn]
    rcases hfw with rfl | rfl <;> simp [getUserFromHeaders, mockAuthFallback, hdis]
  · intro env
    unfold isMockAuthEnabled
    by_cases h1 : env.MOCK_AUTH = some "true" <;>
      by_cases h2 : env.NODE_ENV = some "development" <;> simp [h1, h2]

/-- Claim C3 witness: no header in a production environment without the
flag resolves to no session. -/
theorem none_when_no_header_and_mock_disabled_witness :
    getUserFromHeaders ⟨none, some "production"⟩ none = none :=
  none_when_no_header_and_mock_disabled.1 ⟨none, some "production"⟩ none
    (Or.inl rfl) (by decide) (by decide)

/-- Claim C4: with no (or empty) trust header and mock-auth enabled, the
resolver returns the session of the fixed mock user with no access token. -/
theorem mock_session_when_header_absent (env : AuthEnv) (fw : Option String)
    (hfw : fw = none ∨ fw = some "") (hmock : isMockAuthEnabled env = true) :
    getUserFromHeaders env fw =
      some { user := { id := JVal.jstr "dev-user-001",
                       email := JVal.jstr "developer@localhost.dev",
                       name := some (JVal.jstr "Local Developer"), avatar_url := none },
             access_token := none } := by
  rcases hfw with rfl | rfl <;>
    simp [getUserFromHeaders, mockAuthFallback, hmock, MOCK_USER]

/-- Claim C4 witness: no header with MOCK_AUTH set yields the mock session. -/
theorem mock_session_when_header_absent_witness :
    getUserFromHeaders ⟨some "true", none⟩ none =
      some { user := { id := JVal.jstr "dev-user-001",
                       email := JVal.jstr "developer@localhost.dev",
                       name := some (JVal.jstr "Local Developer"), avatar_url := none },
             access_token := none } :=
  mock_session_when_header_absent ⟨some "true", none⟩ none (Or.inl rfl) (by decide)

/-- Claim C5: the token decoder is total — on every input it produces a
payload or none; a string without exactly three dot-separated segments
gives none; and a three-segment string whose middle segment does not
decode (base64url, then UTF-8, then JSON) gives none. -/
theorem decodeJWT_total_never_throws :
    ∀ t : String,
      (decodeJWT t = none ∨ ∃ v, decodeJWT t = some v) ∧
      ((splitDots t).length ≠ 3 → decodeJWT t = none) ∧
      (∀ a b c, splitDots t = [a, b, c] →
        jsonParse (utf8Decode (base64urlDecode b)) = none → decodeJWT t = none) := by
  intro t
  refine ⟨?_, ?_, ?_⟩
  · cases h : decodeJWT t
    · exact Or.inl rfl
    · exact Or.inr ⟨_, rfl⟩
  · intro hlen
    unfold decodeJWT
    split
    · next a b c heq => exact absurd (by rw [heq]; rfl) hlen
    · rfl
  · intro a b c hsp hparse
    simp [decodeJWT, hsp, hparse]

/-- Claim C5 witness: a dotless string and a three-segment string with an
undecodable middle both decode to none. -/
theorem decodeJWT_total_never_throws_witness :
    decodeJWT "ab" = none ∧ decodeJWT "a.!.c" = none :=
  ⟨(decodeJWT_total_never_throws "ab").2.1 (by decide),
   (decodeJWT_total_never_throws "a.!.c").2.2 "a" "!" "c" rfl rfl⟩

/-- Claim C6 counterexample, refuting the stated property in both of the
ways the code diverges from it. First: the claim keys the picture fallback
on presence, but the code uses JavaScript truthiness — in a payload whose
picture claim is present but empty, the extracted avatar_url is the
avatar_url claim, not the (empty) picture claim the stated property
requires. Second: the claim requires success exactly for a present
non-empty (string) email, but the code keys on truthiness of the raw
value — a payload whose email claim is the JSON number 5 (not a non-empty
string) still extracts, yielding a user whose id and email are that
number. -/
theorem extract_claims_truthiness_cex :
    (jget (JVal.jobj [("email", JVal.jstr "e@x.com"), ("picture", JVal.jstr ""),
        ("avatar_url", JVal.jstr "X")]) "picture" = some (JVal.jstr "") ∧
     extractUserFromJWT (JVal.jobj [("email", JVal.jstr "e@x.com"), ("picture", JVal.jstr ""),
        ("avatar_url", JVal.jstr "X")]) =
       some { id := JVal.jstr "e@x.com", email := JVal.jstr "e@x.com",
              name := none, avatar_url := some (JVal.jstr "X") } ∧
     (some (JVal.jstr "X") : Option JVal) ≠ some (JVal.jstr "")) ∧
    (jget (JVal.jobj [("email", JVal.jnum "5")]) "email" = some (JVal.jnum "5") ∧
     extractUserFromJWT (JVal.jobj [("email", JVal.jnum "5")]) =
       some { id := JVal.jnum "5", email := JVal.jnum "5",
              name := none, avatar_url := none }) :=
  ⟨⟨rfl, rfl, by simp⟩, rfl, rfl⟩

/-- Claim C6 (amended): extraction succeeds exactly when the email claim
is present with a truthy value (not null, false, zero or the empty
string); then the user carries the raw claim values, which need not be
strings — email is the email claim value, id is the sub claim value when
present and truthy else the email value, name is the name claim value
as-is, and avatar_url is the picture claim value when present and truthy,
else the avatar_url claim value when present, else absent. -/
theorem extract_user_claims_amended :
    (∀ (p : JVal) (u : User), extractUserFromJWT p = some u →
      jget p "email" = some u.email ∧ jsFalsy u.email = false ∧
      u.id = (match jget p "sub" with
              | some s => if jsFalsy s then u.email else s
              | none => u.email) ∧
      u.name = jget p "name" ∧
      u.avatar_url = (match jget p "picture" with
                      | some pc => if jsFalsy pc then jget p "avatar_url" else some pc
                      | none => jget p "avatar_url")) ∧
    (∀ (p e : JVal), jget p "email" = some e → jsFalsy e = false →
      ∃ u, extractUserFromJWT p = some u) ∧
    (∀ p : JVal,
      (jget p "email" = none ∨ ∃ e, jget p "email" = some e ∧ jsFalsy e = true) →
      extractUserFromJWT p = none) := by
  refine ⟨?_, ?_, ?_⟩
  · intro p u h
    unfold extractUserFromJWT at h
    cases hcl : jget p "email" with
    | none => rw [hcl] at h; exact absurd h (by simp)
    | some e =>
      rw [hcl] at h
      dsimp only at h
      by_cases he : jsFalsy e
      · rw [if_pos he] at h; exact absurd h (by simp)
      · rw [if_neg he] at h
        obtain rfl := Option.some.inj h
        refine ⟨rfl, by simpa using he, rfl, rfl, ?_⟩
        cases jget p "picture" <;> simp [jsOrVal]
  · intro p e hcl he
    exact ⟨_, by unfold extractUserFromJWT; rw [hcl]; dsimp only; rw [if_neg (by simp [he])]⟩
  · intro p hcl
    unfold extractUserFromJWT
    rcases hcl with hcl | ⟨e, hcl, he⟩
    · rw [hcl]
    · rw [hcl]; simp [he]

/-- Claim C6 witness: the amended field characterisation at a concrete
payload carrying email and sub. -/
theorem extract_user_claims_amended_witness :
    jget iapPayload "email" = some (JVal.jstr "a@b.com") ∧
    jsFalsy (JVal.jstr "a@b.com") = false ∧
    JVal.jstr "u1" = (match jget iapPayload "sub" with
                      | some s => if jsFalsy s then JVal.jstr "a@b.com" else s
                      | none => JVal.jstr "a@b.com") ∧
    (none : Option JVal) = jget iapPayload "name" ∧
    (none : Option JVal) = (match jget iapPayload "picture" with
                            | some pc => if jsFalsy pc then jget iapPayload "avatar_url"
                                         else some pc
                            | none => jget iapPayload "avatar_url") :=
  extract_user_claims_amended.1 iapPayload
    { id := JVal.jstr "u1", email := JVal.jstr "a@b.com",
      name := none, avatar_url := none } rfl

/-- Claim C7 failing input: the invariant is right — and is exactly what
the declared types of User in user-types.ts promise — but the code breaks
it. The cast of the parsed JSON to JWTPayload is unchecked and the email
gate tests truthiness, not type, so the reachable header whose middle
segment is the base64url encoding of a JSON object mapping email to the
number 5 drives that number into the string-typed id and email fields:
with mock-auth fully disabled the resolver returns a header-derived
session whose user id and email are the JSON number 5, which is not a
non-empty string (witnessed by the jnum constructor). -/
theorem resolver_numeric_identity_bug :
    getUserFromHeaders ⟨none, none⟩ (some "x.eyJlbWFpbCI6NX0.y") =
      some { user := { id := JVal.jnum "5", email := JVal.jnum "5",
                       name := none, avatar_url := none },
             access_token := some "x.eyJlbWFpbCI6NX0.y" } ∧
    decodeJWT "x.eyJlbWFpbCI6NX0.y" = some (JVal.jobj [("email", JVal.jnum "5")]) :=
  ⟨rfl, rfl⟩

/-- Claim C8: the session endpoint always responds with status 200; an
absent session gives the null-user body and a present session gives the
user with its access token — never an error status. -/
theorem session_endpoint_always_ok (env : AuthEnv) (fw : Option String) :
    (GET env fw).status = 200 ∧
    (getUserFromHeaders env fw = none → (GET env fw).body = ApiBody.noUser) ∧
    (∀ s, getUserFromHeaders env fw = some s →
      (GET env fw).body = ApiBody.withUser s.user s.access_token) := by
  refine ⟨?_, ?_, ?_⟩
  · unfold GET; split <;> rfl
  · intro h; simp [GET, h]
  · intro s h; simp [GET, h]

/-- Claim C8 witness: with no identity available the endpoint answers 200
with the null-user body. -/
theorem session_endpoint_always_ok_witness :
    (GET ⟨none, none⟩ none).status = 200 ∧ (GET ⟨none, none⟩ none).body = ApiBody.noUser :=
  ⟨(session_endpoint_always_ok ⟨none, none⟩ none).1,
   (session_endpoint_always_ok ⟨none, none⟩ none).2.1 rfl⟩

/-- Claim C9 counterexample: the claim reads the team-name fallback as
keyed on presence, but the code uses JavaScript truthiness. For a session
whose user has the present-but-empty name, the derived team name is the
email, not the (empty) name the stated property requires. -/
theorem userTeam_name_present_empty_cex :
    (⟨⟨JVal.jstr "i1", JVal.jstr "e@x.com", some (JVal.jstr ""), none⟩,
       some "tok"⟩ : UserSession).user.name = some (JVal.jstr "") ∧
    (useAuth (some ⟨⟨JVal.jstr "i1", JVal.jstr "e@x.com", some (JVal.jstr ""), none⟩,
       some "tok"⟩) false).2.1 =
      some { id := JVal.jstr "i1", email := JVal.jstr "e@x.com",
             name := JVal.jstr "e@x.com", tier := "default" } ∧
    JVal.jstr "e@x.com" ≠ JVal.jstr "" :=
  ⟨rfl, rfl, by simp⟩

/-- Claim C9 (amended): the adapter is a pure projection — the legacy
session copies avatar_url into user_metadata and copies the access token;
the derived team copies id and email, its name is the user's name when
present and truthy (for string values: non-empty) else the user's email,
and its tier is the literal default. -/
theorem useAuth_projection_amended (s : UserSession) (b : Bool) :
    ∃ (cs : CompatSession) (ut : UserTeam),
      (useAuth (some s) b).1 = some cs ∧
      (useAuth (some s) b).2.1 = some ut ∧
      cs.user.user_metadata.avatar_url = s.user.avatar_url ∧
      cs.access_token = s.access_token ∧
      ut.id = s.user.id ∧
      ut.email = s.user.email ∧
      ut.name = (match s.user.name with
                 | some n => if jsFalsy n then s.user.email else n
                 | none => s.user.email) ∧
      ut.tier = "default" :=
  ⟨_, _, rfl, rfl, rfl, rfl, rfl, rfl, rfl, rfl⟩

/-- Claim C10: the decoder inspects only the middle segment — two
three-segment tokens with the same middle segment decode identically. -/
theorem decodeJWT_depends_only_on_middle (t1 t2 a b c a2 c2 : String)
    (h1 : splitDots t1 = [a, b, c]) (h2 : splitDots t2 = [a2, b, c2]) :
    decodeJWT t1 = decodeJWT t2 := by
  unfold decodeJWT
  rw [h1, h2]

/-- Claim C10 witness: replacing the header segment and emptying the
signature segment leaves the decoded payload unchanged. -/
theorem decodeJWT_depends_only_on_middle_witness :
    decodeJWT iapToken = decodeJWT "X.eyJlbWFpbCI6ImFAYi5jb20iLCJzdWIiOiJ1MSJ9." :=
  decodeJWT_depends_only_on_middle iapToken
    "X.eyJlbWFpbCI6ImFAYi5jb20iLCJzdWIiOiJ1MSJ9."
    "eyJhbGciOiJub25lIn0" "eyJlbWFpbCI6ImFAYi5jb20iLCJzdWIiOiJ1MSJ9" "sig"
    "X" "" rfl rfl

end AppPlatform
